import Mathlib

/-!
Shallow embedding of `ab/gpt/finetune_deepseek.py` and verification of its
natural-language specification.

The script has two drivers:
* `main(tuned_model_version, dataset_path)` — fine-tunes a causal LM with a
  LoRA adapter (dataset preparation with a disk cache, fixed hyperparameters);
* `generating_response_cycle_model_finetuned(...)` — loads base model plus
  adapter and generates a `Response` for each input JSON record, writing a log
  file incrementally and one output JSON file at the end.

External framework calls (tokenizer, model, generation) are modelled as
oracle parameters; file-system and framework interactions are modelled as an
explicit effect trace.  Randomness that the code draws without a seed
(`train_test_split`, `random.shuffle`) is modelled as explicit permutation
parameters; the seed-42 shuffle is a permutation parameter that is fixed
across runs.
-/

/-- The version-to-model table as written in `main` (lines 55-64).  The
source's key `3.5` is written `Rat.mk' 7 2` (the same rational in normal
form, see `mk_seven_halves_eq`) so that lookups compute by kernel
reduction. -/
def hf_directories_main (v : Rat) : Option String :=
  if v = 1 then some "deepseek-ai/DeepSeek-Coder-V2-Lite-Base"
  else if v = 2 then some "deepseek-ai/deepseek-coder-1.3b-base"
  else if v = 3 then some "deepseek-ai/deepseek-coder-1.3b-base"
  else if v = Rat.mk' 7 2 then some "deepseek-ai/deepseek-coder-1.3b-base"
  else if v = 4 then some "deepseek-ai/DeepSeek-R1-Distill-Qwen-7B"
  else if v = 5 then some "deepseek-ai/deepseek-coder-7b-base-v1.5"
  else if v = 6 then some "deepseek-ai/deepseek-math-7b-base"
  else if v = 7 then some "deepseek-ai/deepseek-coder-7b-instruct-v1.5"
  else none

/-- The version-to-model table as written in
`generating_response_cycle_model_finetuned` (lines 206-215). -/
def hf_directories_gen (v : Rat) : Option String :=
  if v = 1 then some "deepseek-ai/DeepSeek-Coder-V2-Lite-Base"
  else if v = 2 then some "deepseek-ai/deepseek-coder-1.3b-base"
  else if v = 3 then some "deepseek-ai/deepseek-coder-1.3b-base"
  else if v = Rat.mk' 7 2 then some "deepseek-ai/deepseek-coder-1.3b-base"
  else if v = 4 then some "deepseek-ai/DeepSeek-R1-Distill-Qwen-7B"
  else if v = 5 then some "deepseek-ai/deepseek-coder-7b-base-v1.5"
  else if v = 6 then some "deepseek-ai/deepseek-math-7b-base"
  else if v = 7 then some "deepseek-ai/deepseek-coder-7b-instruct-v1.5"
  else none

/-- The table key written `Rat.mk' 7 2` is exactly the source's literal
`3.5`. -/
theorem mk_seven_halves_eq : (Rat.mk' 7 2 : Rat) = 3.5 := by
  rw [Rat.mk'_eq_divInt]
  norm_num [Rat.divInt_eq_div]

/-- The two transcribed tables are literally the same function. -/
theorem hf_directories_agree (v : Rat) : hf_directories_main v = hf_directories_gen v := rfl

/-! ### Python string primitives used by the generation driver

`response_text.split("### Response:")[-1].strip()` (line 264).
Python strings are modelled as `List Char`. -/

/-- The response-section marker `"### Response:"` as a character list. -/
def marker : List Char := ['#', '#', '#', ' ', 'R', 'e', 's', 'p', 'o', 'n', 's', 'e', ':']

/-- `startsWith p s` is true when `p` is an initial segment of `s`
(Python's implicit prefix check during `str.split` scanning). -/
def startsWith : List Char → List Char → Bool
  | [], _ => true
  | _ :: _, [] => false
  | p :: ps, c :: cs => p = c && startsWith ps cs

theorem startsWith_append (p t : List Char) : startsWith p (p ++ t) = true := by
  induction p with
  | nil => rfl
  | cons c cs ih => simp [startsWith, ih]

theorem startsWith_eq_true {p s : List Char} (h : startsWith p s = true) :
    ∃ t, s = p ++ t := by
  induction p generalizing s with
  | nil => exact ⟨s, rfl⟩
  | cons c cs ih =>
    cases s with
    | nil => simp [startsWith] at h
    | cons d ds =>
      simp only [startsWith, Bool.and_eq_true, decide_eq_true_eq] at h
      obtain ⟨t, ht⟩ := ih h.2
      exact ⟨t, by simp [h.1, ht]⟩

/-- First occurrence scanner: `firstSplit? s = some (b, a)` when
`s = b ++ marker ++ a` with `b` shortest; `none` when the marker does not
occur in `s`.  This is the single step of Python's left-to-right greedy
`str.split`. -/
def firstSplit? : List Char → Option (List Char × List Char)
  | [] => none
  | c :: rest =>
    if startsWith marker (c :: rest) then some ([], (c :: rest).drop marker.length)
    else (firstSplit? rest).map fun p => (c :: p.1, p.2)

theorem marker_length : marker.length = 13 := rfl

theorem firstSplit?_sound {s b a : List Char} (h : firstSplit? s = some (b, a)) :
    s = b ++ marker ++ a := by
  induction s generalizing b a with
  | nil => simp [firstSplit?] at h
  | cons c rest ih =>
    rw [firstSplit?.eq_2] at h
    by_cases hs : startsWith marker (c :: rest)
    · rw [if_pos hs] at h
      obtain ⟨t, ht⟩ := startsWith_eq_true hs
      simp only [Option.some.injEq, Prod.mk.injEq] at h
      obtain ⟨hb, ha⟩ := h
      subst hb
      rw [ht, List.drop_left] at ha
      subst ha
      simpa using ht
    · rw [if_neg hs, Option.map_eq_some'] at h
      obtain ⟨⟨b', a'⟩, hfs, heq⟩ := h
      simp only [Prod.mk.injEq] at heq
      obtain ⟨hb, ha⟩ := heq
      subst hb
      subst ha
      simpa using congrArg (c :: ·) (ih hfs)

theorem firstSplit?_none {s : List Char} (h : firstSplit? s = none) :
    ∀ b a, s ≠ b ++ marker ++ a := by
  induction s with
  | nil =>
    intro b a he
    have : marker.length = 0 := by
      have := congrArg List.length he
      simp at this
      omega
    simp [marker_length] at this
  | cons c rest ih =>
    rw [firstSplit?.eq_2] at h
    by_cases hs : startsWith marker (c :: rest)
    · rw [if_pos hs] at h; simp at h
    · rw [if_neg hs, Option.map_eq_none'] at h
      intro b a he
      cases b with
      | nil =>
        simp only [List.nil_append] at he
        exact hs (he ▸ startsWith_append marker a)
      | cons d ds =>
        simp only [List.cons_append, List.cons.injEq] at he
        exact ih h ds a he.2

theorem firstSplit?_minimal {s b₀ a₀ b t : List Char}
    (h : firstSplit? s = some (b₀, a₀)) (he : s = b ++ marker ++ t) :
    b₀.length ≤ b.length := by
  induction s generalizing b₀ a₀ b t with
  | nil => simp [firstSplit?] at h
  | cons c rest ih =>
    rw [firstSplit?.eq_2] at h
    by_cases hs : startsWith marker (c :: rest)
    · rw [if_pos hs] at h
      simp only [Option.some.injEq, Prod.mk.injEq] at h
      simp [← h.1]
    · rw [if_neg hs, Option.map_eq_some'] at h
      obtain ⟨⟨b', a'⟩, hfs, heq⟩ := h
      simp only [Prod.mk.injEq] at heq
      cases b with
      | nil =>
        simp only [List.nil_append] at he
        exact absurd (he ▸ startsWith_append marker t) hs
      | cons d ds =>
        simp only [List.cons_append, List.cons.injEq] at he
        have := ih hfs he.2
        simp only [← heq.1, List.length_cons]
        omega

theorem firstSplit?_lt {s b a : List Char} (h : firstSplit? s = some (b, a)) :
    a.length < s.length := by
  have := congrArg List.length (firstSplit?_sound h)
  simp [marker_length] at this
  omega

/-- Auxiliary recursion for the greedy split, structural on a fuel bound (so
that it computes by kernel reduction); the fuel never runs out when started
at the string length, since each step strictly shortens the remainder. -/
def splitOnMGo : Nat → List Char → List (List Char)
  | 0, s => [s]
  | fuel + 1, s =>
    match firstSplit? s with
    | none => [s]
    | some p => p.1 :: splitOnMGo fuel p.2

/-- Python `s.split(marker)` for the non-empty fixed separator `marker`:
greedy left-to-right, non-overlapping.  Its defining equations are
`splitOnM_of_none` and `splitOnM_of_some`. -/
def splitOnM (s : List Char) : List (List Char) := splitOnMGo s.length s

theorem splitOnMGo_eq (fuel : Nat) (s : List Char) (h : s.length ≤ fuel) :
    splitOnMGo fuel s = splitOnM s := by
  cases fuel with
  | zero =>
    obtain rfl : s = [] := List.length_eq_zero.1 (Nat.le_zero.1 h)
    rfl
  | succ f =>
    cases hf : firstSplit? s with
    | none =>
      rw [splitOnM]
      cases hn : s.length with
      | zero => simp [splitOnMGo, hf]
      | succ m => simp [splitOnMGo, hf]
    | some p =>
      obtain ⟨b, a⟩ := p
      have hlt : a.length < s.length := firstSplit?_lt hf
      cases hn : s.length with
      | zero => omega
      | succ m =>
        rw [splitOnM, hn]
        simp only [splitOnMGo, hf]
        rw [splitOnMGo_eq f a (by omega), splitOnMGo_eq m a (by omega)]
  termination_by fuel
  decreasing_by all_goals omega

theorem splitOnM_of_none {s : List Char} (h : firstSplit? s = none) :
    splitOnM s = [s] := by
  rw [splitOnM]
  cases s.length with
  | zero => rfl
  | succ m => simp [splitOnMGo, h]

theorem splitOnM_of_some {s b a : List Char} (h : firstSplit? s = some (b, a)) :
    splitOnM s = b :: splitOnM a := by
  cases s with
  | nil => simp [firstSplit?] at h
  | cons c rest =>
    have hlt : a.length < (c :: rest).length := firstSplit?_lt h
    rw [splitOnM]
    simp only [List.length_cons, splitOnMGo, h]
    congr 1
    exact splitOnMGo_eq rest.length a (by simp at hlt; omega)

theorem splitOnM_ne_nil (s : List Char) : splitOnM s ≠ [] := by
  rw [splitOnM]
  cases s.length with
  | zero => simp [splitOnMGo]
  | succ m =>
    simp only [splitOnMGo]
    split <;> simp

/-- Python `l[-1]` on the (always non-empty) result of `split`. -/
def pyLast (l : List (List Char)) : List Char := l.getLastD []

/-- `s.split("### Response:")[-1]`. -/
def lastPart (s : List Char) : List Char := pyLast (splitOnM s)

/-- Python `str.strip()`: drop leading and trailing whitespace. -/
def pyStrip (s : List Char) : List Char :=
  (((s.dropWhile Char.isWhitespace).reverse.dropWhile Char.isWhitespace)).reverse

/-- `response_text.split("### Response:")[-1].strip()` (line 264). -/
def extractResponse (s : List Char) : List Char := pyStrip (lastPart s)

/-- Boolean marker-occurrence test (`marker` occurs somewhere in `s`). -/
def hasMarker (s : List Char) : Bool := (firstSplit? s).isSome

theorem hasMarker_eq_false {s : List Char} (h : hasMarker s = false) :
    ∀ b a, s ≠ b ++ marker ++ a := by
  apply firstSplit?_none
  cases hf : firstSplit? s with
  | none => rfl
  | some p => rw [hasMarker, hf] at h; simp at h

theorem hasMarker_iff (s : List Char) :
    hasMarker s = true ↔ ∃ b a, s = b ++ marker ++ a := by
  constructor
  · intro h
    rw [hasMarker, Option.isSome_iff_exists] at h
    obtain ⟨⟨b, a⟩, hp⟩ := h
    exact ⟨b, a, firstSplit?_sound hp⟩
  · intro ⟨b, a, hba⟩
    by_contra hf
    simp only [Bool.not_eq_true] at hf
    exact hasMarker_eq_false hf b a hba

/-- The marker `"### Response:"` has no nonempty proper border: no proper
suffix of it equals a prefix.  Hence its occurrences in a string never
overlap, and Python's greedy `split` segments line up with occurrences. -/
theorem marker_borderFree :
    ∀ d, d < 13 → 0 < d → marker.drop d ≠ marker.take (13 - d) := by decide

theorem pyLast_cons {l : List (List Char)} (h : l ≠ []) (b : List Char) :
    pyLast (b :: l) = pyLast l := by
  cases l with
  | nil => exact absurd rfl h
  | cons x xs => simp [pyLast, List.getLastD_cons]

/-- The last segment of the greedy split never contains the marker. -/
theorem lastPart_no_marker (s : List Char) : hasMarker (lastPart s) = false := by
  cases h : firstSplit? s with
  | none =>
    rw [lastPart, splitOnM_of_none h]
    show hasMarker s = false
    rw [hasMarker, h]
    rfl
  | some p =>
    obtain ⟨b, a⟩ := p
    have hlt : a.length < s.length := firstSplit?_lt h
    rw [lastPart, splitOnM_of_some h, pyLast_cons (splitOnM_ne_nil a)]
    exact lastPart_no_marker a
  termination_by s.length

/-- `pyStrip l` is a contiguous piece of `l`. -/
theorem pyStrip_infix (l : List Char) : ∃ u v, l = u ++ pyStrip l ++ v := by
  obtain ⟨u, hu⟩ := List.dropWhile_suffix (l := l) Char.isWhitespace
  obtain ⟨w, hw⟩ :=
    List.dropWhile_suffix (l := (l.dropWhile Char.isWhitespace).reverse) Char.isWhitespace
  refine ⟨u, w.reverse, ?_⟩
  have hrev := congrArg List.reverse hw
  rw [List.reverse_append, List.reverse_reverse] at hrev
  conv_lhs => rw [← hu, ← hrev]
  simp [pyStrip, List.append_assoc]

theorem hasMarker_pyStrip {l : List Char} (h : hasMarker l = false) :
    hasMarker (pyStrip l) = false := by
  by_contra hc
  simp only [Bool.not_eq_false] at hc
  obtain ⟨b, a, hba⟩ := (hasMarker_iff _).1 hc
  obtain ⟨u, v, huv⟩ := pyStrip_infix l
  refine hasMarker_eq_false h (u ++ b) (a ++ v) ?_
  rw [huv, hba]
  simp [List.append_assoc]

/-- `extractResponse` never contains the marker. -/
theorem extractResponse_no_marker (s : List Char) :
    hasMarker (extractResponse s) = false :=
  hasMarker_pyStrip (lastPart_no_marker s)

/-- Key correctness lemma: when `s = b ++ marker ++ t` and the marker does not
occur in `t` (i.e. this is the LAST occurrence of the marker — for a
border-free marker no later occurrence can straddle), the last segment of the
greedy split is exactly `t`. -/
theorem lastPart_eq (s b t : List Char) (hs : s = b ++ marker ++ t)
    (ht : hasMarker t = false) : lastPart s = t := by
  obtain ⟨⟨b₀, a₀⟩, h0⟩ : ∃ p, firstSplit? s = some p := by
    cases hf : firstSplit? s with
    | none => exact absurd hs (firstSplit?_none hf b t)
    | some p => exact ⟨p, rfl⟩
  have hs0 : s = b₀ ++ marker ++ a₀ := firstSplit?_sound h0
  have hmin : b₀.length ≤ b.length := firstSplit?_minimal h0 hs
  have hlt : a₀.length < s.length := firstSplit?_lt h0
  have hstep : lastPart s = lastPart a₀ := by
    rw [lastPart, splitOnM_of_some h0, pyLast_cons (splitOnM_ne_nil a₀)]
    rfl
  have he : b₀ ++ marker ++ a₀ = b ++ marker ++ t := hs0.symm.trans hs
  rcases Nat.lt_or_ge b₀.length b.length with hlt2 | hge
  · -- the scanner's occurrence is strictly earlier; border-freeness forces a
    -- gap of at least the marker length, so the last occurrence lies in `a₀`
    have he' : b₀ ++ (marker ++ a₀) = b ++ (marker ++ t) := by
      simpa only [List.append_assoc] using he
    have h1 : marker ++ a₀ = b.drop b₀.length ++ (marker ++ t) := by
      have hc := congrArg (List.drop b₀.length) he'
      rwa [List.drop_left, List.drop_append_of_le_length (Nat.le_of_lt hlt2)] at hc
    have hbd : (b.drop b₀.length).length = b.length - b₀.length := by
      simp
    have key : b₀.length + 13 ≤ b.length := by
      by_contra hk
      have hd1 : 0 < b.length - b₀.length := by omega
      have hd2 : b.length - b₀.length < 13 := by omega
      have h2 : marker.drop (b.length - b₀.length) ++ a₀ = marker ++ t := by
        have hc := congrArg (List.drop (b.length - b₀.length)) h1
        rwa [List.drop_append_of_le_length (by rw [marker_length]; omega),
          List.drop_left' hbd] at hc
      have h3 : marker.drop (b.length - b₀.length) =
          marker.take (13 - (b.length - b₀.length)) := by
        have hc := congrArg (List.take (13 - (b.length - b₀.length))) h2
        rwa [List.take_left' (by simp [marker_length]),
          List.take_append_of_le_length (by rw [marker_length]; omega)] at hc
      exact marker_borderFree (b.length - b₀.length) hd2 hd1 h3
    have h2 : a₀ = (b.drop b₀.length).drop 13 ++ (marker ++ t) := by
      have hc := congrArg (List.drop 13) h1
      rwa [List.drop_left' marker_length,
        List.drop_append_of_le_length (by rw [hbd]; omega)] at hc
    rw [hstep]
    exact lastPart_eq a₀ ((b.drop b₀.length).drop 13) t
      (h2.trans (List.append_assoc _ _ _).symm) ht
  · -- same position: the scanner's occurrence is the given last occurrence
    have heq : b₀.length = b.length := Nat.le_antisymm hmin hge
    obtain ⟨hb, hat⟩ := List.append_inj he (by simp [heq])
    have hnone : firstSplit? t = none := by
      cases hf : firstSplit? t with
      | none => rfl
      | some p => rw [hasMarker, hf] at ht; simp at ht
    rw [hstep, hat, lastPart, splitOnM_of_none hnone]
    simp [pyLast]
  termination_by s.length

/-! ### Dataset preparation (`create_prompt`, `tokenize`, cache logic in `main`)

The HF tokenizer is modelled as an oracle `tok : String → List Nat` together
with its `model_max_length`; `tokenize` truncates to that length and applies
no padding (lines 34-43).  The seed-42 shuffle and the unseeded shuffles
inside `train_test_split` are modelled as explicit index permutations. -/

/-- A training record (`question`/`answer` pair) from the raw JSON dataset. -/
structure TrainRecord where
  question : String
  answer : String
  deriving DecidableEq, Repr

/-- `create_prompt` (lines 22-32): the exact f-string template. -/
def create_prompt (data_point : TrainRecord) : String :=
  "\n        ### Input:\n        " ++ data_point.question ++
    "\n\n        ### Response:\n        " ++ data_point.answer ++ "\n    "

/-- `tokenize` (lines 34-43): truncation at `model_max_length`, no padding. -/
def tokenize (tok : String → List Nat) (model_max_length : Nat) (prompt : String) :
    List Nat :=
  (tok prompt).take model_max_length

/-- Reorder `l` by a list of indices (the permutation a shuffle draws);
out-of-range indices are skipped. -/
def applyPerm (perm : List Nat) (l : List α) : List α :=
  perm.filterMap fun i => l[i]?

/-- `Dataset.train_test_split(test_size=0.2)` of the HF `datasets` library:
draw a permutation, take the first `ceil(0.2*n)` permuted elements as the
test set and the next `floor(0.8*n)` as the train set.  The permutation
`perm` is the random draw (the code passes no seed, so each call draws
fresh randomness). -/
def train_test_split (perm : List Nat) (l : List α) : List α × List α :=
  let n := l.length
  let n_test := (n + 4) / 5
  let n_train := (4 * n) / 5
  let permuted := applyPerm perm l
  ((permuted.drop n_test).take n_train, permuted.take n_test)

/-- The fallback path of `main` (lines 106-108): `train` is taken from one
`train_test_split` call and `test` from a SECOND independent call, each with
its own fresh random draw. -/
def splitDatasets (shuffled : List α) (permA permB : List Nat) : List α × List α :=
  ((train_test_split permA shuffled).1, (train_test_split permB shuffled).2)

/-- On-disk cache of the two tokenized collections
(`tokenized_train_dataset` / `tokenized_val_dataset`); `none` models a
missing or corrupt cache entry, whose load raises and triggers the fallback. -/
structure CacheState where
  train : Option (List (List Nat))
  val : Option (List (List Nat))
  deriving DecidableEq, Repr

/-- An input record of the generation driver (the richer
hyperparameter-prediction schema).  `prm` is the hyperparameter dict (only
its keys are used); `accuracy` and `epoch` are stored as their rendered
string forms.  `Response` is absent (`none`) until the driver sets it. -/
structure GenRecord where
  prm : List (String × String)
  metric : String
  task : String
  dataset : String
  transform_code : String
  accuracy : String
  epoch : String
  nn_code : String
  Response : Option String := none
  deriving DecidableEq, Repr

/-- Externally observable side effects of the two drivers, in order. -/
inductive Eff where
  | loadTokenizer (dir : String)
  | loadModel (dir : String)
  | loadCachedDatasets (base : String)
  | readRawDataset (path : String)
  | saveDatasets (base : String)
  | trainRun
  | evaluateRun
  | saveModel (dir : String)
  | saveTokenizer (dir : String)
  | loadAdapter (dir : String)
  | readInputJson (path : String)
  | openLogFile (path : String)
  | logBlock (i : Nat) (prompt : String) (response : String)
  | writeJson (path : String) (indent : Nat) (content : List GenRecord)
  deriving DecidableEq, Repr

/-- The dataset-preparation block of `main` (lines 96-120): try to load both
cached tokenized collections; on any failure, regenerate from the raw file
(seed-42 shuffle, two `train_test_split` calls, prompt templating,
tokenization) and persist both collections.  Returns the two tokenized
collections, the updated cache, and the effect trace. -/
def prepareDatasets (version : Rat) (dataset_path : String) (cache : CacheState)
    (raw : List TrainRecord) (seedPerm permA permB : List Nat)
    (tok : String → List Nat) (model_max_length : Nat) :
    (List (List Nat) × List (List Nat)) × CacheState × List Eff :=
  let base := "Finetuned_models/tuned_model_v" ++ toString version
  match cache.train, cache.val with
  | some ttr, some tva => ((ttr, tva), cache, [Eff.loadCachedDatasets base])
  | _, _ =>
    let shuffled_dataset := applyPerm seedPerm raw
    let train_dataset := (train_test_split permA shuffled_dataset).1
    let eval_dataset := (train_test_split permB shuffled_dataset).2
    let tokenized_train_dataset :=
      train_dataset.map fun dp => tokenize tok model_max_length (create_prompt dp)
    let tokenized_val_dataset :=
      eval_dataset.map fun dp => tokenize tok model_max_length (create_prompt dp)
    ((tokenized_train_dataset, tokenized_val_dataset),
      ⟨some tokenized_train_dataset, some tokenized_val_dataset⟩,
      [Eff.loadCachedDatasets base, Eff.readRawDataset dataset_path,
        Eff.saveDatasets base])

/-! ### Training configuration (`peft_config`, `training_args`, trainer) -/

/-- The fields of the `TrainingArguments` call (lines 145-165). -/
structure TrainingArgumentsM where
  num_train_epochs : Nat
  warmup_steps : Nat
  optim : String
  learning_rate : Rat
  logging_steps : Nat
  max_grad_norm : Rat
  per_device_train_batch_size : Nat
  per_device_eval_batch_size : Nat
  gradient_accumulation_steps : Nat
  lr_scheduler_type : String
  gradient_checkpointing : Bool
  fp16 : Bool
  eval_strategy : String
  save_strategy : String
  output_dir : String
  logging_dir : String
  weight_decay : Rat
  save_total_limit : Nat
  load_best_model_at_end : Bool
  deriving DecidableEq, Repr

/-- `training_args` exactly as constructed in `main` (lines 145-165). -/
def training_args (tuned_model_version : Rat) : TrainingArgumentsM where
  num_train_epochs := 35
  warmup_steps := 100
  optim := "adamw_torch"
  learning_rate := 1e-5
  logging_steps := 10
  max_grad_norm := 1.0
  per_device_train_batch_size := 1
  per_device_eval_batch_size := 1
  gradient_accumulation_steps := 8
  lr_scheduler_type := "cosine"
  gradient_checkpointing := false
  fp16 := true
  eval_strategy := "epoch"
  save_strategy := "epoch"
  output_dir := "./Finetuned_models/tuned_model_v" ++ toString tuned_model_version ++ "/output"
  logging_dir := "./Finetuned_models/tuned_model_v" ++ toString tuned_model_version ++ "/logs"
  weight_decay := 0.01
  save_total_limit := 3
  load_best_model_at_end := true

/-- The fields of the `LoraConfig` call (lines 127-142). -/
structure LoraConfigM where
  r : Nat
  lora_alpha : Nat
  target_modules : List String
  lora_dropout : Rat
  bias : String
  task_type : String
  deriving DecidableEq, Repr

/-- `peft_config` exactly as constructed in `main` (lines 127-142). -/
def peft_config : LoraConfigM where
  r := 32
  lora_alpha := 32
  target_modules := ["q_proj", "k_proj", "v_proj", "o_proj"]
  lora_dropout := 0.05
  bias := "none"
  task_type := "CAUSAL_LM"

/-- `EarlyStoppingCallback(early_stopping_patience=2)` passed to the trainer
(line 176). -/
def early_stopping_patience : Nat := 2

/-! ### Generation driver (`generating_response_cycle_model_finetuned`)

Model generation and decoding (`model.generate` + `tokenizer.decode`) are
modelled by an oracle `genOut : GenRecord → Except String (List Char)`
returning the decoded output text, or an exception. -/

/-- `", ".join(hyperparameters.keys())` (line 246). -/
def prm_names (entry : GenRecord) : String :=
  String.intercalate ", " (entry.prm.map Prod.fst)

/-- `eval_prompt` (lines 248-257): the exact f-string template, including
its trailing spaces. -/
def eval_prompt (entry : GenRecord) : String :=
  "\n            ### Input:\n            Generate only the values (don\x27t provide any explanation) of the hyperparameters ("
    ++ prm_names entry ++ ") of a \n            given model: " ++ entry.metric
    ++ " for the task: " ++ entry.task ++ " on dataset: " ++ entry.dataset
    ++ ", \n            with transformation: " ++ entry.transform_code
    ++ ", so that the model achieves accuracy = " ++ entry.accuracy
    ++ " \n            with number of training epochs = " ++ entry.epoch
    ++ ". \n            Code of that model:\n " ++ entry.nn_code
    ++ "\n\n            ### Response:\n            "

/-- The per-record loop of the generation driver (lines 242-276), starting at
1-based block index `i`: generate, extract the response, append the log
block, set the `Response` field and accumulate.  An exception from the
oracle aborts the remainder of the loop. -/
def runGenLoop (genOut : GenRecord → Except String (List Char)) :
    Nat → List GenRecord → List Eff × Except String (List GenRecord)
  | _, [] => ([], Except.ok [])
  | i, entry :: rest =>
    match genOut entry with
    | Except.error ex => ([], Except.error ex)
    | Except.ok response_text =>
      let resp := (extractResponse response_text).asString
      let r := runGenLoop genOut (i + 1) rest
      (Eff.logBlock i (eval_prompt entry) resp :: r.1,
        r.2.map fun rs => { entry with Response := some resp } :: rs)

/-- The log blocks produced for the records processed before the first
failure of `genOut` (all of them when no failure occurs). -/
def successBlocks (genOut : GenRecord → Except String (List Char)) :
    Nat → List GenRecord → List Eff
  | _, [] => []
  | i, entry :: rest =>
    match genOut entry with
    | Except.error _ => []
    | Except.ok response_text =>
      Eff.logBlock i (eval_prompt entry) (extractResponse response_text).asString ::
        successBlocks genOut (i + 1) rest

/-- The load/setup effects of the generation driver before the loop
(lines 221-240, in program order). -/
def genSetup (hf_directory output_dir input_file_path logs_file : String) : List Eff :=
  [Eff.loadModel hf_directory, Eff.loadTokenizer hf_directory,
    Eff.loadAdapter output_dir, Eff.readInputJson input_file_path,
    Eff.openLogFile logs_file]

/-- `generating_response_cycle_model_finetuned` (lines 205-284): resolve the
version, load model/tokenizer/adapter, read and shuffle the input records
(`random.shuffle` draws `shufflePerm` with no seed), run the per-record
loop, and on success write the accumulated records once as JSON with
4-space indentation. -/
def gen_run (tuned_model_version : Rat)
    (input_file_path output_file_path logs_file : String)
    (data : List GenRecord) (shufflePerm : List Nat)
    (genOut : GenRecord → Except String (List Char)) :
    List Eff × Except String (List GenRecord) :=
  match hf_directories_gen tuned_model_version with
  | none => ([], Except.error ("Unknown model version: " ++ toString tuned_model_version))
  | some hf_directory =>
    let output_dir := "./Finetuned_models/tuned_model_v" ++ toString tuned_model_version ++ "/model"
    let shuffled := applyPerm shufflePerm data
    let r := runGenLoop genOut 1 shuffled
    let setup := genSetup hf_directory output_dir input_file_path logs_file
    match r.2 with
    | Except.error ex => (setup ++ r.1, Except.error ex)
    | Except.ok processed_data =>
      (setup ++ r.1 ++ [Eff.writeJson output_file_path 4 processed_data],
        Except.ok processed_data)

/-- `main` (lines 45-202): resolve the version, load tokenizer and model,
prepare datasets (cache or fallback), train, evaluate, and save adapter
weights and tokenizer. -/
def main_run (tuned_model_version : Rat) (dataset_path : String)
    (cache : CacheState) (raw : List TrainRecord)
    (seedPerm permA permB : List Nat)
    (tok : String → List Nat) (model_max_length : Nat) :
    List Eff × Except String Unit :=
  match hf_directories_main tuned_model_version with
  | none => ([], Except.error ("Unknown model version: " ++ toString tuned_model_version))
  | some hf_directory =>
    let base := "./Finetuned_models/tuned_model_v" ++ toString tuned_model_version
    let pd := prepareDatasets tuned_model_version dataset_path cache raw
      seedPerm permA permB tok model_max_length
    ([Eff.loadTokenizer hf_directory, Eff.loadModel hf_directory] ++ pd.2.2 ++
        [Eff.trainRun, Eff.evaluateRun, Eff.saveModel (base ++ "/model"),
          Eff.saveTokenizer (base ++ "/tokenizer")],
      Except.ok ())

/-- Strip the `Response` field, recovering the input form of a record. -/
def clearResponse (r : GenRecord) : GenRecord := { r with Response := none }

def isWriteJson : Eff → Bool
  | Eff.writeJson _ _ _ => true
  | _ => false

theorem runGenLoop_ok {genOut : GenRecord → Except String (List Char)}
    {i : Nat} {l pd : List GenRecord}
    (h : (runGenLoop genOut i l).2 = Except.ok pd) :
    pd.length = l.length ∧ (∀ r ∈ pd, ∃ s, r.Response = some s) ∧
      pd.map clearResponse = l.map clearResponse := by
  induction l generalizing i pd with
  | nil =>
    simp only [runGenLoop] at h
    cases h
    simp
  | cons entry rest ih =>
    simp only [runGenLoop] at h
    cases hg : genOut entry with
    | error ex => rw [hg] at h; simp at h
    | ok response_text =>
      rw [hg] at h
      simp only at h
      cases hr : (runGenLoop genOut (i + 1) rest).2 with
      | error ex => rw [hr] at h; simp [Except.map] at h
      | ok rs =>
        rw [hr] at h
        simp only [Except.map, Except.ok.injEq] at h
        obtain ⟨h1, h2, h3⟩ := ih hr
        subst h
        refine ⟨by simp [h1], ?_, ?_⟩
        · intro r hr2
          rcases List.mem_cons.1 hr2 with hh | hh
          · exact ⟨_, by rw [hh]⟩
          · exact h2 r hh
        · simp [List.map_cons, h3, clearResponse]

theorem runGenLoop_error {genOut : GenRecord → Except String (List Char)}
    {i : Nat} {l : List GenRecord} {ex : String}
    (h : (runGenLoop genOut i l).2 = Except.error ex) :
    (runGenLoop genOut i l).1 = successBlocks genOut i l ∧
      ∃ pre x post, l = pre ++ x :: post ∧
        (∀ y ∈ pre, ∃ t, genOut y = Except.ok t) ∧
        genOut x = Except.error ex := by
  induction l generalizing i with
  | nil => simp [runGenLoop] at h
  | cons entry rest ih =>
    simp only [runGenLoop] at h ⊢
    cases hg : genOut entry with
    | error ex2 =>
      rw [hg] at h
      simp only [Except.error.injEq] at h
      subst h
      exact ⟨by simp [successBlocks, hg], [], entry, rest, rfl, by simp, hg⟩
    | ok response_text =>
      rw [hg] at h
      simp only at h
      cases hr : (runGenLoop genOut (i + 1) rest).2 with
      | ok rs => rw [hr] at h; simp [Except.map] at h
      | error ex2 =>
        rw [hr] at h
        simp only [Except.map, Except.error.injEq] at h
        subst h
        obtain ⟨h1, pre, x, post, hl, hpre, hx⟩ := ih hr
        refine ⟨?_, entry :: pre, x, post, by simp [hl], ?_, hx⟩
        · simp only [successBlocks, hg, h1]
        · intro y hy
          rcases List.mem_cons.1 hy with hh | hh
          · exact ⟨response_text, by rw [hh, hg]⟩
          · exact hpre y hh

theorem runGenLoop_effs (genOut : GenRecord → Except String (List Char))
    (i : Nat) (l : List GenRecord) :
    ∀ e ∈ (runGenLoop genOut i l).1, isWriteJson e = false := by
  induction l generalizing i with
  | nil => simp [runGenLoop]
  | cons entry rest ih =>
    simp only [runGenLoop]
    cases hg : genOut entry with
    | error ex => simp
    | ok response_text =>
      intro e he
      rcases List.mem_cons.1 he with hh | hh
      · rw [hh]; rfl
      · exact ih (i + 1) e hh

theorem applyPerm_length {l : List α} {perm : List Nat}
    (h : ∀ i ∈ perm, i < l.length) : (applyPerm perm l).length = perm.length := by
  induction perm with
  | nil => rfl
  | cons j js ih =>
    have hj : j < l.length := h j (List.mem_cons_self j js)
    have : l[j]? = some l[j] := List.getElem?_eq_getElem hj
    simp only [applyPerm, List.filterMap_cons, this]
    simpa [applyPerm] using ih fun i hi => h i (List.mem_cons_of_mem j hi)

theorem perm_range_length {n : Nat} {perm : List Nat} (h : perm.Perm (List.range n))
    (l : List α) (hn : n = l.length) : (applyPerm perm l).length = l.length := by
  have hmem : ∀ i ∈ perm, i < l.length := by
    intro i hi
    have := (h.mem_iff).1 hi
    rw [List.mem_range] at this
    omega
  rw [applyPerm_length hmem, h.length_eq, List.length_range, hn]

/-! ### Claim theorems -/

/-- C9: the fine-tuning driver and the generation driver resolve version keys
through one and the same configuration table: for every version key, either
both resolve it to the same pretrained-model identifier or both fail with the
unknown-configuration error. -/
theorem C9_shared_config_table (v : Rat) :
    (hf_directories_main v = none ∧ hf_directories_gen v = none) ∨
      ∃ id, hf_directories_main v = some id ∧ hf_directories_gen v = some id := by
  cases h : hf_directories_main v with
  | none => exact Or.inl ⟨rfl, (hf_directories_agree v).symm.trans h⟩
  | some id => exact Or.inr ⟨id, rfl, (hf_directories_agree v).symm.trans h⟩

/-- C8: the fine-tuning driver configures training with exactly 35 epochs,
100 warmup steps, cosine schedule, learning rate 1e-5, per-device batch size
1 with gradient accumulation 8, fp16, max grad norm 1.0, weight decay 0.01,
per-epoch evaluation and checkpointing, at most 3 retained checkpoints,
best-checkpoint restoration, early stopping after 2 non-improving
evaluations; and attaches a LoRA adapter with rank 32, scaling 32, dropout
0.05, no bias adaptation, targeting the q/k/v/o attention projections. -/
theorem C8_training_configuration (v : Rat) :
    (training_args v).num_train_epochs = 35 ∧
    (training_args v).warmup_steps = 100 ∧
    (training_args v).lr_scheduler_type = "cosine" ∧
    (training_args v).learning_rate = 1e-5 ∧
    (training_args v).per_device_train_batch_size = 1 ∧
    (training_args v).gradient_accumulation_steps = 8 ∧
    (training_args v).fp16 = true ∧
    (training_args v).max_grad_norm = 1 ∧
    (training_args v).weight_decay = 1/100 ∧
    (training_args v).eval_strategy = "epoch" ∧
    (training_args v).save_strategy = "epoch" ∧
    (training_args v).save_total_limit = 3 ∧
    (training_args v).load_best_model_at_end = true ∧
    early_stopping_patience = 2 ∧
    peft_config.r = 32 ∧
    peft_config.lora_alpha = 32 ∧
    peft_config.lora_dropout = 1/20 ∧
    peft_config.bias = "none" ∧
    peft_config.target_modules = ["q_proj", "k_proj", "v_proj", "o_proj"] := by
  refine ⟨rfl, rfl, rfl, rfl, rfl, rfl, rfl, ?_, ?_, rfl, rfl, rfl, rfl, rfl,
    rfl, rfl, ?_, rfl, rfl⟩ <;> norm_num [training_args, peft_config]

/-- C4 counterexample: the claim says the training loop runs with gradient
checkpointing enabled, but `training_args` sets `gradient_checkpointing=False`
(line 160). -/
theorem C4_counterexample : ¬ ((training_args 1).gradient_checkpointing = true) := by
  intro h
  simp [training_args] at h

/-- C4 (amended): the fine-tuning driver runs the training loop with gradient
checkpointing DISABLED (`gradient_checkpointing=False`). -/
theorem C4_gradient_checkpointing_disabled (v : Rat) :
    (training_args v).gradient_checkpointing = false := rfl

/-- C1 (code bug evidence): with the same seed-42-shuffled 5-record dataset,
two runs of the fallback split path that draw different fresh permutations in
`train_test_split` (the code passes no seed there) produce different
train/validation splits — while both draws are valid permutations and the
80/20 sizes do hold.  This contradicts the claimed determinism. -/
theorem C1_split_nondeterministic :
    ([0, 1, 2, 3, 4] : List Nat).Perm (List.range 5) ∧
    ([4, 3, 2, 1, 0] : List Nat).Perm (List.range 5) ∧
    splitDatasets ([0, 1, 2, 3, 4] : List Nat) [0, 1, 2, 3, 4] [0, 1, 2, 3, 4] ≠
      splitDatasets ([0, 1, 2, 3, 4] : List Nat) [4, 3, 2, 1, 0] [4, 3, 2, 1, 0] ∧
    (splitDatasets ([0, 1, 2, 3, 4] : List Nat) [0, 1, 2, 3, 4] [0, 1, 2, 3, 4]).1.length = 4 ∧
    (splitDatasets ([0, 1, 2, 3, 4] : List Nat) [0, 1, 2, 3, 4] [0, 1, 2, 3, 4]).2.length = 1 := by
  decide

/-- C2: for every version key absent from the fixed table, both drivers fail
with the unknown-configuration error before any tokenizer, model, dataset, or
adapter load is attempted, and with no side effects (empty effect trace). -/
theorem C2_unknown_version_fails_early (v : Rat) (dataset_path : String)
    (cache : CacheState) (raw : List TrainRecord) (seedPerm permA permB : List Nat)
    (tok : String → List Nat) (model_max_length : Nat)
    (input_file_path output_file_path logs_file : String) (data : List GenRecord)
    (shufflePerm : List Nat) (genOut : GenRecord → Except String (List Char))
    (h : hf_directories_main v = none) :
    main_run v dataset_path cache raw seedPerm permA permB tok model_max_length =
        ([], Except.error ("Unknown model version: " ++ toString v)) ∧
      gen_run v input_file_path output_file_path logs_file data shufflePerm genOut =
        ([], Except.error ("Unknown model version: " ++ toString v)) := by
  have hg : hf_directories_gen v = none := (hf_directories_agree v).symm.trans h
  constructor
  · simp [main_run, h]
  · simp [gen_run, hg]

/-- C2 witness: version key 10 is absent from the table; both drivers fail
early with empty effect traces on concrete inputs. -/
theorem C2_witness :
    hf_directories_main 10 = none ∧
    (main_run 10 "Dataset/LEMUR_prepared_2.json" ⟨none, none⟩ [] [] [] []
          (fun _ => []) 0 =
        ([], Except.error ("Unknown model version: " ++ toString (10 : Rat))) ∧
      gen_run 10 "in.json" "out.json" "logs.txt" [] [] (fun _ => Except.error "e") =
        ([], Except.error ("Unknown model version: " ++ toString (10 : Rat)))) :=
  ⟨by decide,
    C2_unknown_version_fails_early 10 "Dataset/LEMUR_prepared_2.json" ⟨none, none⟩
      [] [] [] [] (fun _ => []) 0 "in.json" "out.json" "logs.txt" [] []
      (fun _ => Except.error "e") (by decide)⟩

/-- C6: for every decoded generation output, the extracted response equals the
substring after the last occurrence of the marker `"### Response:"` with
surrounding whitespace trimmed, and the extracted response never contains
the literal marker text. -/
theorem C6_extract_after_last_marker (s : List Char) :
    (∀ b t, s = b ++ marker ++ t → hasMarker t = false →
      extractResponse s = pyStrip t) ∧
    ¬ ∃ b2 a2, extractResponse s = b2 ++ marker ++ a2 := by
  constructor
  · intro b t hs ht
    rw [extractResponse, lastPart_eq s b t hs ht]
  · intro ⟨b2, a2, hba⟩
    exact hasMarker_eq_false (extractResponse_no_marker s) b2 a2 hba

/-- C6 witness: on the concrete decoded output `"x ### Response: y "` the
extracted response is the trimmed substring after the (last) marker and does
not contain the marker. -/
theorem C6_witness :
    hasMarker " y ".toList = false ∧
    extractResponse ("x ".toList ++ marker ++ " y ".toList) = pyStrip " y ".toList ∧
    ¬ ∃ b2 a2,
      extractResponse ("x ".toList ++ marker ++ " y ".toList) = b2 ++ marker ++ a2 := by
  refine ⟨by decide, ?_, ?_⟩
  · exact (C6_extract_after_last_marker ("x ".toList ++ marker ++ " y ".toList)).1
      "x ".toList " y ".toList rfl (by decide)
  · exact (C6_extract_after_last_marker ("x ".toList ++ marker ++ " y ".toList)).2

/-- C10: if the decoded output contains no occurrence of the marker, the
extraction totalizes: it returns the entire decoded output trimmed. -/
theorem C10_total_extraction (s : List Char) (h : hasMarker s = false) :
    extractResponse s = pyStrip s := by
  have hnone : firstSplit? s = none := by
    cases hf : firstSplit? s with
    | none => rfl
    | some p => rw [hasMarker, hf] at h; simp at h
  rw [extractResponse, lastPart, splitOnM_of_none hnone]
  rfl

/-- C10 witness: a concrete marker-free decoded output is returned whole,
trimmed. -/
theorem C10_witness :
    hasMarker " no marker here ".toList = false ∧
    extractResponse " no marker here ".toList = pyStrip " no marker here ".toList :=
  ⟨by decide, C10_total_extraction " no marker here ".toList (by decide)⟩

/-- C3: dataset preparation first attempts to load the two cached tokenized
collections; on any load failure (either slot missing/corrupt) it regenerates
both from the raw dataset file and persists them; and a subsequent invocation
with the same version key and dataset path after the first call — whatever
fresh randomness (`permA2`, `permB2`) that second call would draw — loads
from cache and yields token sequences identical to the first call's, leaving
the cache unchanged. -/
theorem C3_cache_idempotent (version : Rat) (dataset_path : String)
    (cache : CacheState) (raw : List TrainRecord)
    (seedPerm permA permB permA2 permB2 : List Nat)
    (tok : String → List Nat) (model_max_length : Nat) :
    ((cache.train = none ∨ cache.val = none) →
      (prepareDatasets version dataset_path cache raw seedPerm permA permB tok
          model_max_length).2.1 =
        CacheState.mk
          (some (prepareDatasets version dataset_path cache raw seedPerm permA permB tok
              model_max_length).1.1)
          (some (prepareDatasets version dataset_path cache raw seedPerm permA permB tok
              model_max_length).1.2) ∧
      (prepareDatasets version dataset_path cache raw seedPerm permA permB tok
          model_max_length).2.2 =
        [Eff.loadCachedDatasets ("Finetuned_models/tuned_model_v" ++ toString version),
          Eff.readRawDataset dataset_path,
          Eff.saveDatasets ("Finetuned_models/tuned_model_v" ++ toString version)]) ∧
    (prepareDatasets version dataset_path
        (prepareDatasets version dataset_path cache raw seedPerm permA permB tok
            model_max_length).2.1
        raw seedPerm permA2 permB2 tok model_max_length).1 =
      (prepareDatasets version dataset_path cache raw seedPerm permA permB tok
          model_max_length).1 ∧
    (prepareDatasets version dataset_path
        (prepareDatasets version dataset_path cache raw seedPerm permA permB tok
            model_max_length).2.1
        raw seedPerm permA2 permB2 tok model_max_length).2.1 =
      (prepareDatasets version dataset_path cache raw seedPerm permA permB tok
          model_max_length).2.1 ∧
    (prepareDatasets version dataset_path
        (prepareDatasets version dataset_path cache raw seedPerm permA permB tok
            model_max_length).2.1
        raw seedPerm permA2 permB2 tok model_max_length).2.2 =
      [Eff.loadCachedDatasets ("Finetuned_models/tuned_model_v" ++ toString version)] := by
  obtain ⟨ct, cv⟩ := cache
  cases ct <;> cases cv <;> simp [prepareDatasets]

/-- C3 witness: a concrete first run on an empty cache regenerates and
persists; the concrete second run (with different permutation draws) loads
from cache and returns identical token sequences. -/
theorem C3_witness :
    ((CacheState.mk none none).train = none ∨ (CacheState.mk none none).val = none →
      (prepareDatasets 1 "d.json" (CacheState.mk none none) [TrainRecord.mk "q" "a"]
          [0] [0] [0] (fun _ => [1, 2, 3]) 2).2.1 =
        CacheState.mk
          (some (prepareDatasets 1 "d.json" (CacheState.mk none none) [TrainRecord.mk "q" "a"]
              [0] [0] [0] (fun _ => [1, 2, 3]) 2).1.1)
          (some (prepareDatasets 1 "d.json" (CacheState.mk none none) [TrainRecord.mk "q" "a"]
              [0] [0] [0] (fun _ => [1, 2, 3]) 2).1.2) ∧
      (prepareDatasets 1 "d.json" (CacheState.mk none none) [TrainRecord.mk "q" "a"]
          [0] [0] [0] (fun _ => [1, 2, 3]) 2).2.2 =
        [Eff.loadCachedDatasets ("Finetuned_models/tuned_model_v" ++ toString (1 : Rat)),
          Eff.readRawDataset "d.json",
          Eff.saveDatasets ("Finetuned_models/tuned_model_v" ++ toString (1 : Rat))]) ∧
    (prepareDatasets 1 "d.json"
        (prepareDatasets 1 "d.json" (CacheState.mk none none) [TrainRecord.mk "q" "a"]
            [0] [0] [0] (fun _ => [1, 2, 3]) 2).2.1
        [TrainRecord.mk "q" "a"] [0] [] [] (fun _ => [1, 2, 3]) 2).1 =
      (prepareDatasets 1 "d.json" (CacheState.mk none none) [TrainRecord.mk "q" "a"]
          [0] [0] [0] (fun _ => [1, 2, 3]) 2).1 ∧
    (prepareDatasets 1 "d.json"
        (prepareDatasets 1 "d.json" (CacheState.mk none none) [TrainRecord.mk "q" "a"]
            [0] [0] [0] (fun _ => [1, 2, 3]) 2).2.1
        [TrainRecord.mk "q" "a"] [0] [] [] (fun _ => [1, 2, 3]) 2).2.1 =
      (prepareDatasets 1 "d.json" (CacheState.mk none none) [TrainRecord.mk "q" "a"]
          [0] [0] [0] (fun _ => [1, 2, 3]) 2).2.1 ∧
    (prepareDatasets 1 "d.json"
        (prepareDatasets 1 "d.json" (CacheState.mk none none) [TrainRecord.mk "q" "a"]
            [0] [0] [0] (fun _ => [1, 2, 3]) 2).2.1
        [TrainRecord.mk "q" "a"] [0] [] [] (fun _ => [1, 2, 3]) 2).2.2 =
      [Eff.loadCachedDatasets ("Finetuned_models/tuned_model_v" ++ toString (1 : Rat))] :=
  C3_cache_idempotent 1 "d.json" (CacheState.mk none none) [TrainRecord.mk "q" "a"]
    [0] [0] [0] [] [] (fun _ => [1, 2, 3]) 2

/-- C5: for every run of the generation driver that completes without an
exception, the output JSON file contains exactly one record per input record
(count equal to the input collection length), each being an input record (in
shuffled order) augmented with a non-null string `Response` field, and the
file is written exactly once, at the end of the trace, pretty-printed with
4-space indentation. -/
theorem C5_output_records (tuned_model_version : Rat)
    (input_file_path output_file_path logs_file : String)
    (data : List GenRecord) (shufflePerm : List Nat)
    (genOut : GenRecord → Except String (List Char)) (processed_data : List GenRecord)
    (hperm : shufflePerm.Perm (List.range data.length))
    (h : (gen_run tuned_model_version input_file_path output_file_path logs_file data
        shufflePerm genOut).2 = Except.ok processed_data) :
    processed_data.length = data.length ∧
    (∀ r ∈ processed_data, ∃ s, r.Response = some s) ∧
    processed_data.map clearResponse = (applyPerm shufflePerm data).map clearResponse ∧
    ∃ pre,
      (gen_run tuned_model_version input_file_path output_file_path logs_file data
          shufflePerm genOut).1 =
        pre ++ [Eff.writeJson output_file_path 4 processed_data] ∧
      ∀ e ∈ pre, isWriteJson e = false := by
  cases hd : hf_directories_gen tuned_model_version with
  | none => rw [gen_run, hd] at h; simp at h
  | some hf_directory =>
    rw [gen_run, hd] at h
    simp only at h
    cases hr : (runGenLoop genOut 1 (applyPerm shufflePerm data)).2 with
    | error ex => rw [hr] at h; simp at h
    | ok rs =>
      rw [hr] at h
      simp only [Except.ok.injEq] at h
      subst h
      obtain ⟨h1, h2, h3⟩ := runGenLoop_ok hr
      refine ⟨?_, h2, h3, ?_⟩
      · rw [h1, perm_range_length hperm data rfl]
      · refine ⟨genSetup hf_directory
          ("./Finetuned_models/tuned_model_v" ++ toString tuned_model_version ++ "/model")
          input_file_path logs_file ++ (runGenLoop genOut 1 (applyPerm shufflePerm data)).1,
          ?_, ?_⟩
        · rw [gen_run, hd]
          simp only [hr, List.append_assoc]
        · intro e he
          rcases List.mem_append.1 he with hh | hh
          · simp only [genSetup, List.mem_cons, List.not_mem_nil, or_false] at hh
            rcases hh with h5 | h5 | h5 | h5 | h5 <;> subst h5 <;> rfl
          · exact runGenLoop_effs genOut 1 (applyPerm shufflePerm data) e hh

/-- C7: if an exception is raised while processing any record of the
generation loop, the whole run aborts with no retry: the effect trace is the
setup loads followed by exactly the log blocks of the records processed
before the failure, and no output JSON write ever appears in the trace. -/
theorem C7_abort_no_json (tuned_model_version : Rat) (hf_directory : String)
    (input_file_path output_file_path logs_file : String)
    (data : List GenRecord) (shufflePerm : List Nat)
    (genOut : GenRecord → Except String (List Char)) (ex : String)
    (hdir : hf_directories_gen tuned_model_version = some hf_directory)
    (h : (gen_run tuned_model_version input_file_path output_file_path logs_file data
        shufflePerm genOut).2 = Except.error ex) :
    (gen_run tuned_model_version input_file_path output_file_path logs_file data
        shufflePerm genOut).1 =
      genSetup hf_directory
          ("./Finetuned_models/tuned_model_v" ++ toString tuned_model_version ++ "/model")
          input_file_path logs_file ++
        successBlocks genOut 1 (applyPerm shufflePerm data) ∧
    (∀ e ∈ (gen_run tuned_model_version input_file_path output_file_path logs_file data
        shufflePerm genOut).1, isWriteJson e = false) ∧
    ∃ pre x post, applyPerm shufflePerm data = pre ++ x :: post ∧
      (∀ y ∈ pre, ∃ t, genOut y = Except.ok t) ∧
      genOut x = Except.error ex := by
  rw [gen_run, hdir] at h
  simp only at h
  cases hr : (runGenLoop genOut 1 (applyPerm shufflePerm data)).2 with
  | ok rs => rw [hr] at h; simp at h
  | error ex2 =>
    rw [hr] at h
    simp only [Except.error.injEq] at h
    subst h
    obtain ⟨h1, pre, x, post, hl, hpre, hx⟩ := runGenLoop_error hr
    refine ⟨?_, ?_, pre, x, post, hl, hpre, hx⟩
    · rw [gen_run, hdir]
      simp only [hr, h1]
    · rw [gen_run, hdir]
      simp only [hr]
      intro e he
      rcases List.mem_append.1 he with hh | hh
      · simp only [genSetup, List.mem_cons, List.not_mem_nil, or_false] at hh
        rcases hh with h5 | h5 | h5 | h5 | h5 <;> subst h5 <;> rfl
      · exact runGenLoop_effs genOut 1 (applyPerm shufflePerm data) e hh

/-- C5 witness: a concrete one-record run that completes successfully yields
one output record with `Response = some "y"` and a trace ending in the single
4-space-indented JSON write. -/
theorem C5_witness :
    ([0] : List Nat).Perm
      (List.range [GenRecord.mk [("lr", "0.1")] "m" "t" "d" "tc" "0.9" "5" "c" none].length) ∧
    (gen_run 1 "in.json" "out.json" "logs.txt"
        [GenRecord.mk [("lr", "0.1")] "m" "t" "d" "tc" "0.9" "5" "c" none] [0]
        (fun _ => Except.ok "x ### Response: y".toList)).2 =
      Except.ok [GenRecord.mk [("lr", "0.1")] "m" "t" "d" "tc" "0.9" "5" "c" (some "y")] ∧
    ([GenRecord.mk [("lr", "0.1")] "m" "t" "d" "tc" "0.9" "5" "c" (some "y")].length =
        [GenRecord.mk [("lr", "0.1")] "m" "t" "d" "tc" "0.9" "5" "c" none].length ∧
      (∀ r ∈ [GenRecord.mk [("lr", "0.1")] "m" "t" "d" "tc" "0.9" "5" "c" (some "y")],
        ∃ s, r.Response = some s) ∧
      [GenRecord.mk [("lr", "0.1")] "m" "t" "d" "tc" "0.9" "5" "c" (some "y")].map
          clearResponse =
        (applyPerm [0]
            [GenRecord.mk [("lr", "0.1")] "m" "t" "d" "tc" "0.9" "5" "c" none]).map
          clearResponse ∧
      ∃ pre,
        (gen_run 1 "in.json" "out.json" "logs.txt"
            [GenRecord.mk [("lr", "0.1")] "m" "t" "d" "tc" "0.9" "5" "c" none] [0]
            (fun _ => Except.ok "x ### Response: y".toList)).1 =
          pre ++ [Eff.writeJson "out.json" 4
            [GenRecord.mk [("lr", "0.1")] "m" "t" "d" "tc" "0.9" "5" "c" (some "y")]] ∧
        ∀ e ∈ pre, isWriteJson e = false) := by
  refine ⟨by decide, by rfl, ?_⟩
  exact C5_output_records 1 "in.json" "out.json" "logs.txt"
    [GenRecord.mk [("lr", "0.1")] "m" "t" "d" "tc" "0.9" "5" "c" none] [0]
    (fun _ => Except.ok "x ### Response: y".toList)
    [GenRecord.mk [("lr", "0.1")] "m" "t" "d" "tc" "0.9" "5" "c" (some "y")]
    (by decide) (by rfl)

/-- C7 witness: a concrete run whose first record's generation raises aborts
with the error, leaves only the setup effects (no log blocks were yet
written, no JSON write), and exhibits the failing record. -/
theorem C7_witness :
    hf_directories_gen 1 = some "deepseek-ai/DeepSeek-Coder-V2-Lite-Base" ∧
    (gen_run 1 "in.json" "out.json" "logs.txt"
        [GenRecord.mk [("lr", "0.1")] "m" "t" "d" "tc" "0.9" "5" "c" none] [0]
        (fun _ : GenRecord => (Except.error "boom" : Except String (List Char)))).2 = Except.error "boom" ∧
    ((gen_run 1 "in.json" "out.json" "logs.txt"
        [GenRecord.mk [("lr", "0.1")] "m" "t" "d" "tc" "0.9" "5" "c" none] [0]
        (fun _ : GenRecord => (Except.error "boom" : Except String (List Char)))).1 =
      genSetup "deepseek-ai/DeepSeek-Coder-V2-Lite-Base"
          ("./Finetuned_models/tuned_model_v" ++ toString (1 : Rat) ++ "/model")
          "in.json" "logs.txt" ++
        successBlocks (fun _ : GenRecord => (Except.error "boom" : Except String (List Char))) 1
          (applyPerm [0] [GenRecord.mk [("lr", "0.1")] "m" "t" "d" "tc" "0.9" "5" "c" none]) ∧
    (∀ e ∈ (gen_run 1 "in.json" "out.json" "logs.txt"
        [GenRecord.mk [("lr", "0.1")] "m" "t" "d" "tc" "0.9" "5" "c" none] [0]
        (fun _ : GenRecord => (Except.error "boom" : Except String (List Char)))).1, isWriteJson e = false) ∧
    ∃ pre x post,
      applyPerm [0] [GenRecord.mk [("lr", "0.1")] "m" "t" "d" "tc" "0.9" "5" "c" none] =
        pre ++ x :: post ∧
      (∀ y ∈ pre, ∃ t, (fun _ : GenRecord => (Except.error "boom" : Except String (List Char))) y = Except.ok t) ∧
      (fun _ : GenRecord => (Except.error "boom" : Except String (List Char))) x = Except.error "boom") := by
  refine ⟨by decide, by rfl, ?_⟩
  exact C7_abort_no_json 1 "deepseek-ai/DeepSeek-Coder-V2-Lite-Base"
    "in.json" "out.json" "logs.txt"
    [GenRecord.mk [("lr", "0.1")] "m" "t" "d" "tc" "0.9" "5" "c" none] [0]
    (fun _ : GenRecord => (Except.error "boom" : Except String (List Char))) "boom" (by decide) (by rfl)
